import Mathlib

/-!
Shallow embedding of the CAISO energy-analysis tool (`src/compute.rs`,
`src/convert.rs`) and proofs about its core algorithms: the 5-minute bucket
indexer, the bucketed mean aggregators, the sorted merge-join iterator over
price and generation records, the quantity-weighted value aggregator, the
solar-battery category-merge transform, and the persisted value-profile table.
-/

set_option maxRecDepth 10000

attribute [local semireducible] Rat.mul Rat.add Rat.sub Rat.inv Rat.ofScientific

/-- Exact model of an IEEE-754 double (`f64`) as used by the program: a finite
value is carried as an exact rational (rounding and overflow of the binary
format are not modelled, and neither is the sign of zero); NaN and the two
infinities are explicit. All arithmetic the program performs on `f64` values
is mirrored on this type. -/
inductive F64 where
  | fin (q : ℚ)
  | nan
  | inf
  | ninf
deriving DecidableEq

/-- IEEE addition on the model: NaN propagates, opposite infinities give NaN. -/
def F64.add : F64 → F64 → F64
  | .nan, _ => .nan
  | _, .nan => .nan
  | .inf, .ninf => .nan
  | .ninf, .inf => .nan
  | .inf, _ => .inf
  | _, .inf => .inf
  | .ninf, _ => .ninf
  | _, .ninf => .ninf
  | .fin a, .fin b => .fin (a + b)

/-- IEEE multiplication on the model: NaN propagates, infinity times zero is NaN. -/
def F64.mul : F64 → F64 → F64
  | .nan, _ => .nan
  | _, .nan => .nan
  | .inf, .inf => .inf
  | .inf, .ninf => .ninf
  | .ninf, .inf => .ninf
  | .ninf, .ninf => .inf
  | .inf, .fin b => if b = 0 then .nan else if 0 < b then .inf else .ninf
  | .fin a, .inf => if a = 0 then .nan else if 0 < a then .inf else .ninf
  | .ninf, .fin b => if b = 0 then .nan else if 0 < b then .ninf else .inf
  | .fin a, .ninf => if a = 0 then .nan else if 0 < a then .ninf else .inf
  | .fin a, .fin b => .fin (a * b)

/-- IEEE division on the model: `0/0` is NaN, a nonzero finite value divided by
(positive) zero is a signed infinity, a finite value divided by an infinity is
zero (signed zero is not modelled). -/
def F64.div : F64 → F64 → F64
  | .nan, _ => .nan
  | _, .nan => .nan
  | .inf, .inf => .nan
  | .inf, .ninf => .nan
  | .ninf, .inf => .nan
  | .ninf, .ninf => .nan
  | .inf, .fin b => if 0 ≤ b then .inf else .ninf
  | .ninf, .fin b => if 0 ≤ b then .ninf else .inf
  | .fin _, .inf => .fin 0
  | .fin _, .ninf => .fin 0
  | .fin a, .fin b =>
      if b = 0 then (if a = 0 then .nan else if 0 < a then .inf else .ninf)
      else .fin (a / b)

/-- IEEE absolute value on the model (`f64::abs`). -/
def F64.abs : F64 → F64
  | .fin a => .fin |a|
  | .nan => .nan
  | .inf => .inf
  | .ninf => .inf

/-- A finite `F64` is one carrying a rational value. -/
def F64.isFinite : F64 → Bool
  | .fin _ => true
  | _ => false

/-- The `usize`-to-`f64` cast `ct as f64` (exact for every count that occurs). -/
def F64.ofNat (n : ℕ) : F64 := .fin (n : ℚ)

/-- A parsed `chrono::NaiveDateTime`, the result of
`NaiveDateTime::parse_from_str(_, "%Y-%m-%d %H:%M:%S")`. -/
structure Timestamp where
  year : ℕ
  month : ℕ
  day : ℕ
  hour : ℕ
  minute : ℕ
  second : ℕ
deriving DecidableEq

instance : Inhabited Timestamp := ⟨⟨0, 1, 1, 0, 0, 0⟩⟩

/-- Gregorian leap-year test, as used by chrono's calendar validation. -/
def isLeapYear (y : ℕ) : Bool := y % 4 = 0 && (y % 100 ≠ 0 || y % 400 = 0)

/-- Number of days in a month of the proleptic Gregorian calendar. -/
def daysInMonth (y m : ℕ) : ℕ :=
  if m = 2 then (if isLeapYear y then 29 else 28)
  else if m = 4 ∨ m = 6 ∨ m = 9 ∨ m = 11 then 30
  else 31

/-- Calendar validity of a parsed timestamp: the ranges chrono enforces when
parsing `%Y-%m-%d %H:%M:%S` (second 60 is the leap second chrono accepts). -/
def Timestamp.valid (t : Timestamp) : Prop :=
  1 ≤ t.month ∧ t.month ≤ 12 ∧ 1 ≤ t.day ∧ t.day ≤ daysInMonth t.year t.month ∧
    t.hour ≤ 23 ∧ t.minute ≤ 59 ∧ t.second ≤ 60

instance (t : Timestamp) : Decidable t.valid := by
  unfold Timestamp.valid; infer_instance

/-- Split a character list at every occurrence of the separator `c`. -/
def splitOnChar (c : Char) (l : List Char) : List (List Char) :=
  match l with
  | [] => [[]]
  | x :: xs =>
      let rest := splitOnChar c xs
      if x = c then [] :: rest
      else match rest with
        | [] => [[x]]
        | r :: rs => (x :: r) :: rs

/-- Read a nonempty all-digit character list as a natural number. -/
def digitsToNat : List Char → Option ℕ
  | [] => none
  | l =>
    if l.all (·.isDigit) then
      some (l.foldl (fun acc c => acc * 10 + (c.toNat - 48)) 0)
    else none

/-- Modelled behavior of the external library call
`chrono::NaiveDateTime::parse_from_str(s, "%Y-%m-%d %H:%M:%S")`: the string
must be of the shape `y-m-d h:m:s` with numeric fields, and the fields must
pass calendar validation (month 1..12, day valid for the month, hour ≤ 23,
minute ≤ 59, second ≤ 60). Negative years and chrono's exact field-width
limits are not modelled. -/
def parseTimestamp (s : String) : Option Timestamp :=
  match splitOnChar ' ' s.toList with
  | [date, time] =>
    match splitOnChar '-' date, splitOnChar ':' time with
    | [ys, ms, ds], [hs, mis, ss] => do
        let y ← digitsToNat ys
        let m ← digitsToNat ms
        let d ← digitsToNat ds
        let h ← digitsToNat hs
        let mi ← digitsToNat mis
        let sec ← digitsToNat ss
        let t : Timestamp := ⟨y, m, d, h, mi, sec⟩
        if t.valid then some t else none
    | _, _ => none
  | _ => none

/-- Chronological key of a timestamp. On calendar-valid timestamps this is an
order-embedding of chrono's `NaiveDateTime` ordering (the comparison used by
`price_time.cmp(&gen_time)`), so comparisons between parsed timestamps are
modelled by natural-number comparisons of their keys. -/
def tsKey (t : Timestamp) : ℕ :=
  ((((t.year * 13 + t.month) * 32 + t.day) * 24 + t.hour) * 60 + t.minute) * 61 + t.second

theorem parseTimestamp_valid {s : String} {t : Timestamp}
    (h : parseTimestamp s = some t) : t.valid := by
  unfold parseTimestamp at h
  split at h
  case h_2 => exact absurd h (by simp)
  split at h
  case h_2 => exact absurd h (by simp)
  simp only [Option.bind_eq_bind, Option.bind_eq_some] at h
  obtain ⟨y, _, m, _, d, _, hh, _, mi, _, sec, _, h⟩ := h
  split at h
  · obtain rfl : _ = t := Option.some.inj h
    assumption
  · exact absurd h (by simp)

theorem daysInMonth_le (y m : ℕ) : daysInMonth y m ≤ 31 := by
  unfold daysInMonth
  split
  · split <;> omega
  · split <;> omega

theorem tsKey_inj_of_valid {t u : Timestamp} (ht : t.valid) (hu : u.valid)
    (h : tsKey t = tsKey u) : t = u := by
  obtain ⟨ty, tm, td, th, tmi, ts⟩ := t
  obtain ⟨uy, um, ud, uh, umi, us⟩ := u
  obtain ⟨h1, h2, h3, h4, h5, h6, h7⟩ := ht
  obtain ⟨g1, g2, g3, g4, g5, g6, g7⟩ := hu
  dsimp only at h1 h2 h3 h4 h5 h6 h7 g1 g2 g3 g4 g5 g6 g7
  have hd : td ≤ 31 := le_trans h4 (daysInMonth_le _ _)
  have gd : ud ≤ 31 := le_trans g4 (daysInMonth_le _ _)
  simp only [tsKey] at h
  simp only [Timestamp.mk.injEq]
  omega

/-- Embedding of `EnergyPriceCsvRow` from `src/convert.rs`. -/
structure EnergyPriceCsvRow where
  timestamp : String
  hour : ℕ
  minute : ℕ
  lmp_avg : F64
deriving DecidableEq

/-- Embedding of `EnergyGenCsvRow` from `src/convert.rs`. The Rust field
`imports` is rendered as `src_imports` here; all other field names are kept. -/
structure EnergyGenCsvRow where
  utc_timestamp : String
  local_timestamp_start : String
  local_timestamp_end : String
  local_date : String
  hour : ℕ
  total : F64
  battery : F64
  biogas : F64
  biomass : F64
  coal : F64
  geothermal : F64
  src_imports : F64
  large_hydro : F64
  natural_gas : F64
  nuclear : F64
  other : F64
  small_hydro : F64
  solar : F64
  wind : F64
  minute : ℕ
deriving DecidableEq

/-- The `Default::default()` generation row: empty strings and `0.0` in every
numeric field. -/
def EnergyGenCsvRow.default : EnergyGenCsvRow :=
  ⟨"", "", "", "", 0, .fin 0, .fin 0, .fin 0, .fin 0, .fin 0, .fin 0, .fin 0,
    .fin 0, .fin 0, .fin 0, .fin 0, .fin 0, .fin 0, .fin 0, 0⟩

/-- Embedding of `EnergyGenCsvRow::sources`: the 14-element source-quantity
vector, `total` first. -/
def EnergyGenCsvRow.sources (r : EnergyGenCsvRow) : List F64 :=
  [r.total, r.battery, r.biogas, r.biomass, r.coal, r.geothermal, r.src_imports,
    r.large_hydro, r.natural_gas, r.nuclear, r.other, r.small_hydro, r.solar,
    r.wind]

/-- The names of `EnergyGenCsvRow::HEADER_KEYWORDS` (the chart colors paired
with them in the Rust constant play no role in the computations and are
omitted). -/
def EnergyGenCsvRow.headerKeywords : List String :=
  ["Timestamp", "Beginning", "Ending", "Date", "Hour", "Total", "Batteries",
    "Biogas", "Biomass", "Coal", "Geothermal", "Imports", "Large Hydro",
    "Natural Gas", "Nuclear", "Other", "Small Hydro", "Solar", "Wind"]

/-- Embedding of `EnergyGenCsvRow::source_keys`: the header keywords with the
first five (non-source) columns skipped. -/
def EnergyGenCsvRow.source_keys : List String :=
  EnergyGenCsvRow.headerKeywords.drop 5

/-- Embedding of `Compute::MINS_PER_DAY`. -/
def Compute.MINS_PER_DAY : ℕ := 24 * 60

/-- Embedding of `Compute::MINS_INCR`. -/
def Compute.MINS_INCR : ℕ := 5

/-- Embedding of `Compute::MAX_WINDOW_MISS`, the bucket-count divergence the
completeness check tolerates. -/
def Compute.MAX_WINDOW_MISS : ℕ := 12

/-- Embedding of `Compute::time_to_idx_5min`. -/
def Compute.time_to_idx_5min (hour minute : ℕ) : ℕ :=
  ((hour * 60) + minute) / Compute.MINS_INCR

/-- Embedding of `Compute::idx_5min_to_time`. -/
def Compute.idx_5min_to_time (idx : ℕ) : ℕ × ℕ :=
  ((idx * 5) / 60, (idx * 5) % 60)

/-- Embedding of `Compute::battery_idx` (the function asserts that
`source_keys()[1] == "Batteries"` and returns 1). -/
def Compute.battery_idx : ℕ := 1

/-- Embedding of `Compute::solar_idx` (the function asserts that
`source_keys()[12] == "Solar"` and returns 12). -/
def Compute.solar_idx : ℕ := 12

/-- The closure passed to the `_solar_battery` variants:
`row[solar_idx] += row[battery_idx]; row[battery_idx] = 0.;`. -/
def solarBatteryMod (v : List F64) : List F64 :=
  (v.set Compute.solar_idx
      (F64.add (v.getD Compute.solar_idx (.fin 0)) (v.getD Compute.battery_idx (.fin 0)))).set
    Compute.battery_idx (.fin 0)

/-- One iteration of the accumulation loop in `average_gen_5min_custom`: apply
`gen_mod` to the row's source vector, add it element-wise into the bucket
selected by `time_to_idx_5min`, and bump that bucket's count. -/
def genStep (genMod : List F64 → List F64) (st : List (List F64) × List ℕ)
    (row : EnergyGenCsvRow) : List (List F64) × List ℕ :=
  let sources := genMod row.sources
  let idx := Compute.time_to_idx_5min row.hour row.minute
  (st.1.set idx (List.zipWith F64.add (st.1.getD idx []) sources),
    st.2.set idx (st.2.getD idx 0 + 1))

/-- The accumulation loop of `average_gen_5min_custom` over already-decoded
rows. -/
def genAccum (genMod : List F64 → List F64) :
    List EnergyGenCsvRow → List (List F64) × List ℕ → List (List F64) × List ℕ
  | [], st => st
  | row :: rest, st => genAccum genMod rest (genStep genMod st row)

/-- The accumulation loop of `average_gen_5min_custom` over the raw
deserialization stream: `let line: EnergyGenCsvRow = line?;` propagates the
first decode error. -/
def genLoop (genMod : List F64 → List F64) :
    List (Except String EnergyGenCsvRow) → List (List F64) × List ℕ →
      Except String (List (List F64) × List ℕ)
  | [], st => .ok st
  | .error e :: _, _ => .error e
  | .ok row :: rest, st => genLoop genMod rest (genStep genMod st row)

/-- The finalization loop of `average_gen_5min_custom`: for each bucket (sum
vector, count), fail if the count diverges from the reference count `c0` by
more than `MAX_WINDOW_MISS`, otherwise divide the bucket's sums by the count. -/
def genFinalize (c0 : ℕ) : List (List F64 × ℕ) → Except String (List (List F64))
  | [] => .ok []
  | (total, ct) :: rest =>
      if max ct c0 - min ct c0 > Compute.MAX_WINDOW_MISS then
        .error ("Distrib is not even: diff(" ++ toString c0 ++ ", " ++
          toString ct ++ ") > " ++ toString Compute.MAX_WINDOW_MISS)
      else do
        let rest' ← genFinalize c0 rest
        pure (total.map (fun val => F64.div val (F64.ofNat ct)) :: rest')

/-- The initial per-bucket result vectors of `average_gen_5min_custom`: one
default row per bucket (with `hour`/`minute` filled in from the index), turned
into its all-zero source vector. -/
def genInitResults : List (List F64) :=
  (List.range (Compute.MINS_PER_DAY / Compute.MINS_INCR)).map fun idx =>
    let t := Compute.idx_5min_to_time idx
    { EnergyGenCsvRow.default with hour := t.1, minute := t.2 }.sources

/-- Embedding of `Compute::average_gen_5min_custom` over a list of
deserialization results. -/
def Compute.average_gen_5min_custom (genMod : List F64 → List F64)
    (lines : List (Except String EnergyGenCsvRow)) :
    Except String (List (List F64)) := do
  let st ← genLoop genMod lines
    (genInitResults, List.replicate (Compute.MINS_PER_DAY / Compute.MINS_INCR) 0)
  genFinalize (st.2.getD 0 0) (st.1.zip st.2)

/-- Embedding of `Compute::average_gen_5min`. -/
def Compute.average_gen_5min (lines : List (Except String EnergyGenCsvRow)) :
    Except String (List (List F64)) :=
  Compute.average_gen_5min_custom (fun v => v) lines

/-- Embedding of `Compute::average_gen_solar_battery`. -/
def Compute.average_gen_solar_battery (lines : List (Except String EnergyGenCsvRow)) :
    Except String (List (List F64)) :=
  Compute.average_gen_5min_custom solarBatteryMod lines

/-- One iteration of the accumulation loop in `average_price_5min`. -/
def priceStep (st : List F64 × List ℕ) (row : EnergyPriceCsvRow) :
    List F64 × List ℕ :=
  let idx := Compute.time_to_idx_5min row.hour row.minute
  (st.1.set idx (F64.add (st.1.getD idx (.fin 0)) row.lmp_avg),
    st.2.set idx (st.2.getD idx 0 + 1))

/-- The accumulation loop of `average_price_5min` over the raw stream;
`let line: EnergyPriceCsvRow = line?;` propagates the first decode error. -/
def priceLoop : List (Except String EnergyPriceCsvRow) → List F64 × List ℕ →
    Except String (List F64 × List ℕ)
  | [], st => .ok st
  | .error e :: _, _ => .error e
  | .ok row :: rest, st => priceLoop rest (priceStep st row)

/-- The finalization loop of `average_price_5min`: per bucket, the same
completeness check as the generation variant (same `MAX_WINDOW_MISS`
threshold), then an unguarded division of the sum by the count. -/
def priceFinalize (c0 : ℕ) : List (F64 × ℕ) → Except String (List F64)
  | [] => .ok []
  | (total, ct) :: rest =>
      if max ct c0 - min ct c0 > Compute.MAX_WINDOW_MISS then
        .error ("Distrib is not even: diff(" ++ toString c0 ++ ", " ++
          toString ct ++ ") > target")
      else do
        let rest' ← priceFinalize c0 rest
        pure (F64.div total (F64.ofNat ct) :: rest')

/-- Embedding of `Compute::average_price_5min` over a list of deserialization
results. -/
def Compute.average_price_5min (lines : List (Except String EnergyPriceCsvRow)) :
    Except String (List F64) := do
  let st ← priceLoop lines
    (List.replicate (Compute.MINS_PER_DAY / Compute.MINS_INCR) (.fin 0),
      List.replicate (Compute.MINS_PER_DAY / Compute.MINS_INCR) 0)
  priceFinalize (st.2.getD 0 0) (st.1.zip st.2)

/-- Fuel-indexed unfolding of `PriceGenIter::next` iterated to exhaustion
(`src/compute.rs`). Each step peeks both streams; a decode error or an
exhausted stream on either side ends the iteration, as does a timestamp that
fails to parse; otherwise the two parsed timestamps are compared, an equal pair
is emitted (advancing both streams) and an unmatched record on the side with
the smaller timestamp is skipped. The fuel only serves structural recursion;
`pgList` supplies enough for it never to run out. -/
def pgListFuel : ℕ → List (Except String EnergyPriceCsvRow) →
    List (Except String EnergyGenCsvRow) →
    List (EnergyPriceCsvRow × EnergyGenCsvRow)
  | 0, _, _ => []
  | _ + 1, [], _ => []
  | _ + 1, _, [] => []
  | _ + 1, .error _ :: _, _ => []
  | _ + 1, _, .error _ :: _ => []
  | fuel + 1, .ok p :: ps, .ok g :: gs =>
    match parseTimestamp p.timestamp, parseTimestamp g.local_timestamp_start with
    | some pt, some gt =>
      match compare (tsKey pt) (tsKey gt) with
      | .eq => (p, g) :: pgListFuel fuel ps gs
      | .gt => pgListFuel fuel (.ok p :: ps) gs
      | .lt => pgListFuel fuel ps (.ok g :: gs)
    | _, _ => []

/-- The full sequence of pairs produced by the Aligned Pair Iterator
(`PriceGenIter`, created by `Compute::try_iter_price_gen`). -/
def pgList (ps : List (Except String EnergyPriceCsvRow))
    (gs : List (Except String EnergyGenCsvRow)) :
    List (EnergyPriceCsvRow × EnergyGenCsvRow) :=
  pgListFuel (ps.length + gs.length) ps gs

/-- One iteration of the accumulation loop in `average_value_5min_custom`:
apply `gen_mod` to the generation row's sources, then per source index add the
absolute quantity into the quantity totals and quantity times price into the
value totals. -/
def valueStep (genMod : List F64 → List F64) (st : List F64 × List F64)
    (pair : EnergyPriceCsvRow × EnergyGenCsvRow) : List F64 × List F64 :=
  let sources := genMod pair.2.sources
  (List.zipWith (fun acc qty => F64.add acc (F64.mul qty pair.1.lmp_avg)) st.1 sources,
    List.zipWith (fun tot qty => F64.add tot (F64.abs qty)) st.2 sources)

/-- The accumulation fold of `average_value_5min_custom` over the aligned
pairs. -/
def valueAccum (genMod : List F64 → List F64)
    (pairs : List (EnergyPriceCsvRow × EnergyGenCsvRow)) : List F64 × List F64 :=
  pairs.foldl (valueStep genMod) (List.replicate 14 (.fin 0), List.replicate 14 (.fin 0))

/-- The finalization loop of `average_value_5min_custom`: divide each value
total by the matching quantity total unless that quantity total equals zero,
in which case the slot is left untouched. -/
def valueFinalize (accs qtys : List F64) : List F64 :=
  List.zipWith (fun total q => if q ≠ F64.fin 0 then F64.div total q else total)
    accs qtys

/-- Embedding of `Compute::average_value_5min_custom` over the two record
streams: consume the aligned pairs of `PriceGenIter`, accumulate, finalize,
and return the (averages, quantity totals) pair. -/
def Compute.average_value_5min_custom (genMod : List F64 → List F64)
    (ps : List (Except String EnergyPriceCsvRow))
    (gs : List (Except String EnergyGenCsvRow)) : List F64 × List F64 :=
  let st := valueAccum genMod (pgList ps gs)
  (valueFinalize st.1 st.2, st.2)

/-- Embedding of `Compute::average_value_5min`. -/
def Compute.average_value_5min (ps : List (Except String EnergyPriceCsvRow))
    (gs : List (Except String EnergyGenCsvRow)) : List F64 × List F64 :=
  Compute.average_value_5min_custom (fun v => v) ps gs

/-- Embedding of `Compute::average_value_solar_battery`. -/
def Compute.average_value_solar_battery (ps : List (Except String EnergyPriceCsvRow))
    (gs : List (Except String EnergyGenCsvRow)) : List F64 × List F64 :=
  Compute.average_value_5min_custom solarBatteryMod ps gs

/-- Decimal digits of the fractional part `x` (with `0 ≤ x < 1`), emitted until
the expansion terminates or the fuel runs out; models how Rust's default `f64`
`Display` prints the (always finite) decimal expansion of a double. -/
def fracDigits : ℕ → ℚ → String
  | 0, _ => ""
  | fuel + 1, x =>
      if x = 0 then ""
      else
        let y := x * 10
        toString ⌊y⌋.toNat ++ fracDigits fuel (y - ⌊y⌋)

/-- Modelled behavior of Rust's default `Display` for `f64` (the `{qty}`
column of `write_energy_value_averages`): sign, integer part, and the decimal
expansion of the fractional part when nonzero. -/
def fmtQty : F64 → String
  | .nan => "NaN"
  | .inf => "inf"
  | .ninf => "-inf"
  | .fin q =>
      let sign := if q < 0 then "-" else ""
      let a := |q|
      let ip := (⌊a⌋).toNat
      let fr := a - ⌊a⌋
      if fr = 0 then sign ++ toString ip
      else sign ++ toString ip ++ "." ++ fracDigits 1100 fr

/-- Modelled behavior of Rust's `{:.2}` formatting for `f64` (the `avg_price`
column of `write_energy_value_averages`): round to two decimal places (ties,
which cannot arise from doubles at this precision boundary in practice, round
up here) and print with exactly two fractional digits. -/
def fmt2 : F64 → String
  | .nan => "NaN"
  | .inf => "inf"
  | .ninf => "-inf"
  | .fin q =>
      let n : ℤ := round (q * 100)
      let sign := if n < 0 then "-" else ""
      let ip := n.natAbs / 100
      let fr := n.natAbs % 100
      sign ++ toString ip ++ "." ++
        (if fr < 10 then "0" ++ toString fr else toString fr)

/-- Embedding of `write_energy_value_averages` from `src/convert.rs` as the
table of records it writes: a header row, then one three-column row (label,
price formatted to two decimals, quantity) per element of
`source_keys().zip(averages).zip(qtys)`. -/
def write_energy_value_averages (averages qtys : List F64) : List (List String) :=
  ["source", "avg_price", "net_mwh"] ::
    (EnergyGenCsvRow.source_keys.zip (averages.zip qtys)).map
      (fun row => [row.1, fmt2 row.2.1, fmtQty row.2.2])

/-- The timestamp key a price record sorts by (0 when its timestamp fails to
parse; only used under parse-success hypotheses). -/
def priceKey (p : EnergyPriceCsvRow) : ℕ :=
  ((parseTimestamp p.timestamp).map tsKey).getD 0

/-- The timestamp key a generation record sorts by (0 when its timestamp fails
to parse; only used under parse-success hypotheses). -/
def genKey (g : EnergyGenCsvRow) : ℕ :=
  ((parseTimestamp g.local_timestamp_start).map tsKey).getD 0

/-- Specification-side description of the Aligned Pair Iterator, written from
the spec's words rather than from the code: the pairs whose timestamp strings
parse to equal date-times, each price record matched with the generation
record found for it, in price-record order; records without a timestamp-equal
counterpart contribute nothing. -/
def specAlignedPairs (ps : List EnergyPriceCsvRow) (gs : List EnergyGenCsvRow) :
    List (EnergyPriceCsvRow × EnergyGenCsvRow) :=
  ps.filterMap fun p =>
    (gs.find? fun g =>
        decide (parseTimestamp p.timestamp = parseTimestamp g.local_timestamp_start)).map
      fun g => (p, g)

/-- Discriminator for `Except` results (`Ok` versus `Err` of `anyhow::Result`). -/
def exIsOk : Except ε α → Bool
  | .ok _ => true
  | .error _ => false

/-- Convenience constructor for a price record. -/
def mkPrice (ts : String) (h m : ℕ) (lmp : F64) : EnergyPriceCsvRow :=
  ⟨ts, h, m, lmp⟩

/-- Convenience constructor for a generation record that differs from the
default row in its start timestamp, hour, minute, and battery quantity. -/
def mkGenB (ts : String) (h m : ℕ) (b : F64) : EnergyGenCsvRow :=
  { EnergyGenCsvRow.default with
      local_timestamp_start := ts, hour := h, minute := m, battery := b }

/-- C7: for every integer i in [0, 288), `to_bucket(from_bucket(i)) == i`,
where `from_bucket` is `Compute::idx_5min_to_time` and `to_bucket` is
`Compute::time_to_idx_5min`. -/
theorem claim_C7_bucket_round_trip (i : ℕ) (_hi : i < 288) :
    Compute.time_to_idx_5min (Compute.idx_5min_to_time i).1
      (Compute.idx_5min_to_time i).2 = i := by
  simp only [Compute.time_to_idx_5min, Compute.idx_5min_to_time,
    Compute.MINS_INCR]
  omega

theorem claim_C7_bucket_round_trip_witness :
    7 < 288 ∧
      Compute.time_to_idx_5min (Compute.idx_5min_to_time 7).1
        (Compute.idx_5min_to_time 7).2 = 7 :=
  ⟨by decide, claim_C7_bucket_round_trip 7 (by decide)⟩

/-- C5: the category-merge transform used by the solar-battery variants of the
bucketed and value aggregations zeroes the donor (battery, index 1) slot of
every record's source vector and leaves the receiver (solar, index 12) slot
holding the pre-merge sum of the solar and battery quantities; both
solar-battery pipeline variants are exactly the custom pipelines run with this
transform, and the donor/receiver indices match the asserted source names. -/
theorem claim_C5_category_merge :
    (∀ r : EnergyGenCsvRow,
      (solarBatteryMod r.sources).getD Compute.battery_idx (.fin 0) = F64.fin 0 ∧
      (solarBatteryMod r.sources).getD Compute.solar_idx (.fin 0) =
        F64.add (r.sources.getD Compute.solar_idx (.fin 0))
          (r.sources.getD Compute.battery_idx (.fin 0))) ∧
    Compute.average_gen_solar_battery =
      Compute.average_gen_5min_custom solarBatteryMod ∧
    Compute.average_value_solar_battery =
      Compute.average_value_5min_custom solarBatteryMod ∧
    EnergyGenCsvRow.source_keys.getD Compute.battery_idx "" = "Batteries" ∧
    EnergyGenCsvRow.source_keys.getD Compute.solar_idx "" = "Solar" :=
  ⟨fun _ => ⟨rfl, rfl⟩, rfl, rfl, rfl, rfl⟩

/-- C10: the solar-battery merge transform changes only the battery (index 1)
and solar (index 12) entries of a record's 14-element source vector; every
other entry, the synthetic total at index 0 included, is returned unchanged.
Both pipeline variants run exactly this transform. -/
theorem claim_C10_merge_frame :
    (∀ (r : EnergyGenCsvRow) (j : ℕ), j < 14 → j ≠ Compute.battery_idx →
      j ≠ Compute.solar_idx →
      (solarBatteryMod r.sources).getD j (.fin 0) = r.sources.getD j (.fin 0)) ∧
    Compute.average_gen_solar_battery =
      Compute.average_gen_5min_custom solarBatteryMod ∧
    Compute.average_value_solar_battery =
      Compute.average_value_5min_custom solarBatteryMod := by
  refine ⟨fun r j hj h1 h12 => ?_, rfl, rfl⟩
  simp only [Compute.battery_idx, Compute.solar_idx] at h1 h12
  interval_cases j <;> first | rfl | omega

theorem claim_C10_merge_frame_witness :
    (solarBatteryMod (mkGenB "" 0 0 (.fin 5)).sources).getD 0 (.fin 0) =
      (mkGenB "" 0 0 (.fin 5)).sources.getD 0 (.fin 0) :=
  claim_C10_merge_frame.1 (mkGenB "" 0 0 (.fin 5)) 0 (by decide) (by decide)
    (by decide)

theorem sources_length (r : EnergyGenCsvRow) : r.sources.length = 14 := rfl

theorem valueStep_length (genMod : List F64 → List F64)
    (st : List F64 × List F64) (pr : EnergyPriceCsvRow × EnergyGenCsvRow)
    (hs : (genMod pr.2.sources).length = 14)
    (h1 : st.1.length = 14) (h2 : st.2.length = 14) :
    (valueStep genMod st pr).1.length = 14 ∧
      (valueStep genMod st pr).2.length = 14 := by
  simp [valueStep, List.length_zipWith, hs, h1, h2]

theorem valueFoldl_length (genMod : List F64 → List F64)
    (hlen : ∀ v : List F64, (genMod v).length = v.length) :
    ∀ (pairs : List (EnergyPriceCsvRow × EnergyGenCsvRow))
      (st : List F64 × List F64), st.1.length = 14 → st.2.length = 14 →
      (pairs.foldl (valueStep genMod) st).1.length = 14 ∧
        (pairs.foldl (valueStep genMod) st).2.length = 14
  | [], _, h1, h2 => ⟨h1, h2⟩
  | pr :: rest, st, h1, h2 => by
      have hs : (genMod pr.2.sources).length = 14 := by
        rw [hlen, sources_length]
      have hstep := valueStep_length genMod st pr hs h1 h2
      exact valueFoldl_length genMod hlen rest _ hstep.1 hstep.2

theorem valueAccum_length (genMod : List F64 → List F64)
    (hlen : ∀ v : List F64, (genMod v).length = v.length)
    (pairs : List (EnergyPriceCsvRow × EnergyGenCsvRow)) :
    (valueAccum genMod pairs).1.length = 14 ∧
      (valueAccum genMod pairs).2.length = 14 :=
  valueFoldl_length genMod hlen pairs _ (by simp) (by simp)

theorem valueStep_getD (genMod : List F64 → List F64)
    (st : List F64 × List F64) (pr : EnergyPriceCsvRow × EnergyGenCsvRow)
    (i : ℕ) (hi : i < 14) (hs : (genMod pr.2.sources).length = 14)
    (h1 : st.1.length = 14) (h2 : st.2.length = 14) :
    (valueStep genMod st pr).2.getD i (.fin 0) =
      F64.add (st.2.getD i (.fin 0))
        (F64.abs ((genMod pr.2.sources).getD i (.fin 0))) ∧
    (valueStep genMod st pr).1.getD i (.fin 0) =
      F64.add (st.1.getD i (.fin 0))
        (F64.mul ((genMod pr.2.sources).getD i (.fin 0)) pr.1.lmp_avg) := by
  have hstep := valueStep_length genMod st pr hs h1 h2
  constructor
  · rw [List.getD_eq_getElem _ _ (by rw [hstep.2]; exact hi),
      List.getD_eq_getElem _ _ (by rw [h2]; exact hi),
      List.getD_eq_getElem _ _ (by rw [hs]; exact hi)]
    simp only [valueStep]
    rw [List.getElem_zipWith]
  · rw [List.getD_eq_getElem _ _ (by rw [hstep.1]; exact hi),
      List.getD_eq_getElem _ _ (by rw [h1]; exact hi),
      List.getD_eq_getElem _ _ (by rw [hs]; exact hi)]
    simp only [valueStep]
    rw [List.getElem_zipWith]

theorem valueAccum_append (genMod : List F64 → List F64)
    (prs : List (EnergyPriceCsvRow × EnergyGenCsvRow))
    (pr : EnergyPriceCsvRow × EnergyGenCsvRow) :
    valueAccum genMod (prs ++ [pr]) = valueStep genMod (valueAccum genMod prs) pr := by
  simp [valueAccum, List.foldl_append]

/-- C2 counterexample: the Value Aggregator does not weight the value total by
the absolute quantity. For an aligned pair whose battery quantity is -10 at
price 2.0, the accumulated battery value total is -10 * 2 = -20 and the
finalized average is -20 / 10 = -2, not the abs(-10) * 2 / 10 = 2 the claim
predicts. -/
theorem claim_C2_counterexample :
    (Compute.average_value_5min
        [.ok (mkPrice "2024-01-01 00:00:00" 0 0 (.fin 2))]
        [.ok (mkGenB "2024-01-01 00:00:00" 0 0 (.fin (-10)))]).1.getD 1 (.fin 0) =
      F64.fin (-2) ∧
    (Compute.average_value_5min
        [.ok (mkPrice "2024-01-01 00:00:00" 0 0 (.fin 2))]
        [.ok (mkGenB "2024-01-01 00:00:00" 0 0 (.fin (-10)))]).2.getD 1 (.fin 0) =
      F64.fin 10 ∧
    F64.fin (-2) ≠
      F64.div (F64.mul (F64.abs (F64.fin (-10))) (F64.fin 2)) (F64.fin 10) := by
  refine ⟨by decide, by decide, by decide⟩

/-- C2 amended: per aligned pair and per source index, the quantity total
increases by `abs(quantity[source])` and the value total increases by the
signed `quantity[source] * price` (not by `abs(quantity[source]) * price`);
consequently two aligned pairs for a single source with (positive) quantities
10 and 30 at prices 2.0 and 4.0 still finalize to weighted average 3.5 with
total quantity 40. -/
theorem claim_C2_value_accumulation :
    (∀ (prs : List (EnergyPriceCsvRow × EnergyGenCsvRow))
        (pr : EnergyPriceCsvRow × EnergyGenCsvRow) (i : Fin 14),
      (valueAccum (fun v => v) (prs ++ [pr])).2.getD i.1 (.fin 0) =
        F64.add ((valueAccum (fun v => v) prs).2.getD i.1 (.fin 0))
          (F64.abs (pr.2.sources.getD i.1 (.fin 0))) ∧
      (valueAccum (fun v => v) (prs ++ [pr])).1.getD i.1 (.fin 0) =
        F64.add ((valueAccum (fun v => v) prs).1.getD i.1 (.fin 0))
          (F64.mul (pr.2.sources.getD i.1 (.fin 0)) pr.1.lmp_avg)) ∧
    (Compute.average_value_5min
        [.ok (mkPrice "2024-01-01 00:00:00" 0 0 (.fin 2)),
          .ok (mkPrice "2024-01-01 00:05:00" 0 5 (.fin 4))]
        [.ok (mkGenB "2024-01-01 00:00:00" 0 0 (.fin 10)),
          .ok (mkGenB "2024-01-01 00:05:00" 0 5 (.fin 30))]).1.getD 1 (.fin 0) =
      F64.fin (7 / 2) ∧
    (Compute.average_value_5min
        [.ok (mkPrice "2024-01-01 00:00:00" 0 0 (.fin 2)),
          .ok (mkPrice "2024-01-01 00:05:00" 0 5 (.fin 4))]
        [.ok (mkGenB "2024-01-01 00:00:00" 0 0 (.fin 10)),
          .ok (mkGenB "2024-01-01 00:05:00" 0 5 (.fin 30))]).2.getD 1 (.fin 0) =
      F64.fin 40 := by
  refine ⟨fun prs pr i => ?_, by decide, by decide⟩
  have hlen : ∀ v : List F64, ((fun v => v) v).length = v.length := fun _ => rfl
  have hacc := valueAccum_length (fun v => v) hlen prs
  have hs : ((fun v => v) pr.2.sources).length = 14 := sources_length pr.2
  rw [valueAccum_append]
  exact valueStep_getD (fun v => v) _ pr i.1 i.2 hs hacc.1 hacc.2

/-- The pure accumulation loop of `average_price_5min` over already-decoded
rows. -/
def priceAccum : List EnergyPriceCsvRow → List F64 × List ℕ → List F64 × List ℕ
  | [], st => st
  | row :: rest, st => priceAccum rest (priceStep st row)

/-- Common shape of the two per-bucket accumulation loops: each record
updates the slot of its bucket index and bumps that bucket's count. -/
def bucketAccum (idxOf : ρ → ℕ) (upd : ρ → α → α) (dflt : α) :
    List ρ → List α × List ℕ → List α × List ℕ
  | [], st => st
  | r :: rest, st =>
      bucketAccum idxOf upd dflt rest
        (st.1.set (idxOf r) (upd r (st.1.getD (idxOf r) dflt)),
          st.2.set (idxOf r) (st.2.getD (idxOf r) 0 + 1))

theorem getD_set' (l : List β) (i j : ℕ) (a d : β) :
    (l.set i a).getD j d = if i = j ∧ i < l.length then a else l.getD j d := by
  simp only [List.getD_eq_getElem?_getD, List.getElem?_set]
  by_cases h : i = j
  · subst h
    by_cases hl : i < l.length
    · simp [hl]
    · simp [hl, List.getElem?_eq_none (le_of_not_lt hl)]
  · simp [h]

theorem genAccum_eq_bucketAccum (genMod : List F64 → List F64) :
    ∀ (rows : List EnergyGenCsvRow) (st : List (List F64) × List ℕ),
      genAccum genMod rows st =
        bucketAccum (fun r => Compute.time_to_idx_5min r.hour r.minute)
          (fun r old => List.zipWith F64.add old (genMod r.sources)) []
          rows st
  | [], _ => rfl
  | _ :: rest, st => genAccum_eq_bucketAccum genMod rest _

theorem priceAccum_eq_bucketAccum :
    ∀ (rows : List EnergyPriceCsvRow) (st : List F64 × List ℕ),
      priceAccum rows st =
        bucketAccum (fun r => Compute.time_to_idx_5min r.hour r.minute)
          (fun r old => F64.add old r.lmp_avg) (.fin 0) rows st
  | [], _ => rfl
  | _ :: rest, st => priceAccum_eq_bucketAccum rest _

theorem bucketAccum_length (idxOf : ρ → ℕ) (upd : ρ → α → α) (dflt : α) :
    ∀ (rows : List ρ) (st : List α × List ℕ),
      (bucketAccum idxOf upd dflt rows st).1.length = st.1.length ∧
        (bucketAccum idxOf upd dflt rows st).2.length = st.2.length
  | [], _ => ⟨rfl, rfl⟩
  | r :: rest, st => by
      have ih := bucketAccum_length idxOf upd dflt rest
        (st.1.set (idxOf r) (upd r (st.1.getD (idxOf r) dflt)),
          st.2.set (idxOf r) (st.2.getD (idxOf r) 0 + 1))
      simpa [bucketAccum, List.length_set] using ih

theorem bucketAccum_counts_le (idxOf : ρ → ℕ) (upd : ρ → α → α) (dflt : α) :
    ∀ (rows : List ρ) (st : List α × List ℕ) (i : ℕ),
      st.2.getD i 0 ≤ (bucketAccum idxOf upd dflt rows st).2.getD i 0
  | [], _, _ => le_refl _
  | r :: rest, st, i => by
      refine le_trans ?_ (bucketAccum_counts_le idxOf upd dflt rest _ i)
      show st.2.getD i 0 ≤ (st.2.set (idxOf r) (st.2.getD (idxOf r) 0 + 1)).getD i 0
      rw [getD_set']
      split
      · next h => rw [← h.1]; omega
      · exact le_refl _

theorem bucketAccum_sums_of_counts_eq (idxOf : ρ → ℕ) (upd : ρ → α → α) (dflt : α) :
    ∀ (rows : List ρ) (st : List α × List ℕ) (i : ℕ),
      st.1.length = st.2.length →
      (bucketAccum idxOf upd dflt rows st).2.getD i 0 = st.2.getD i 0 →
      (bucketAccum idxOf upd dflt rows st).1.getD i dflt = st.1.getD i dflt
  | [], _, _, _, _ => rfl
  | r :: rest, st, i, hlen, hct => by
      have hstep : bucketAccum idxOf upd dflt (r :: rest) st =
          bucketAccum idxOf upd dflt rest
            (st.1.set (idxOf r) (upd r (st.1.getD (idxOf r) dflt)),
              st.2.set (idxOf r) (st.2.getD (idxOf r) 0 + 1)) := rfl
      by_cases hidx : idxOf r = i ∧ idxOf r < st.2.length
      · exfalso
        have hmono := bucketAccum_counts_le idxOf upd dflt rest
          (st.1.set (idxOf r) (upd r (st.1.getD (idxOf r) dflt)),
            st.2.set (idxOf r) (st.2.getD (idxOf r) 0 + 1)) i
        have hset : (st.2.set (idxOf r) (st.2.getD (idxOf r) 0 + 1)).getD i 0 =
            st.2.getD i 0 + 1 := by
          rw [getD_set', if_pos hidx, hidx.1]
        rw [hstep] at hct
        rw [hset] at hmono
        omega
      · have hct' : (st.2.set (idxOf r) (st.2.getD (idxOf r) 0 + 1)).getD i 0 =
            st.2.getD i 0 := by rw [getD_set', if_neg hidx]
        have hsums : (st.1.set (idxOf r) (upd r (st.1.getD (idxOf r) dflt))).getD i dflt =
            st.1.getD i dflt := by
          rw [getD_set']
          split
          · next h => exact absurd ⟨h.1, by omega⟩ hidx
          · rfl
        rw [hstep] at hct ⊢
        rw [bucketAccum_sums_of_counts_eq idxOf upd dflt rest _ i
          (by simp [List.length_set, hlen]) (by rw [hct, hct'])]
        exact hsums

theorem genLoop_map_ok (genMod : List F64 → List F64) :
    ∀ (rows : List EnergyGenCsvRow) (st : List (List F64) × List ℕ),
      genLoop genMod (rows.map .ok) st = .ok (genAccum genMod rows st)
  | [], _ => rfl
  | _ :: rest, st => genLoop_map_ok genMod rest _

theorem priceLoop_map_ok :
    ∀ (rows : List EnergyPriceCsvRow) (st : List F64 × List ℕ),
      priceLoop (rows.map .ok) st = .ok (priceAccum rows st)
  | [], _ => rfl
  | _ :: rest, st => priceLoop_map_ok rest _

theorem genFinalize_error_iff (c0 : ℕ) :
    ∀ l : List (List F64 × ℕ),
      (∃ e, genFinalize c0 l = .error e) ↔
        ∃ pr ∈ l, Compute.MAX_WINDOW_MISS < max pr.2 c0 - min pr.2 c0
  | [] => by simp [genFinalize]
  | (total, ct) :: rest => by
      unfold genFinalize
      split
      · next h =>
        simp only [List.mem_cons]
        exact ⟨fun _ => ⟨(total, ct), Or.inl rfl, h⟩, fun _ => ⟨_, rfl⟩⟩
      · next h =>
        simp only [List.mem_cons]
        constructor
        · rintro ⟨e, he⟩
          rcases hrest : genFinalize c0 rest with e' | res
          · exact ((genFinalize_error_iff c0 rest).1 ⟨e', hrest⟩).imp
              fun pr hpr => ⟨Or.inr hpr.1, hpr.2⟩
          · rw [hrest] at he
            exact absurd he (by simp [Bind.bind, Except.bind, pure, Except.pure])
        · rintro ⟨pr, hpr | hpr, hgt⟩
          · subst hpr; exact absurd hgt (by omega)
          · obtain ⟨e, he⟩ := (genFinalize_error_iff c0 rest).2 ⟨pr, hpr, hgt⟩
            exact ⟨e, by rw [he]; rfl⟩

theorem genFinalize_ok (c0 : ℕ) :
    ∀ l : List (List F64 × ℕ),
      (∀ pr ∈ l, max pr.2 c0 - min pr.2 c0 ≤ Compute.MAX_WINDOW_MISS) →
      genFinalize c0 l =
        .ok (l.map fun pr => pr.1.map fun val => F64.div val (F64.ofNat pr.2))
  | [], _ => rfl
  | (total, ct) :: rest, h => by
      unfold genFinalize
      rw [if_neg (by exact not_lt_of_le (h (total, ct) (List.mem_cons_self _ _)))]
      rw [genFinalize_ok c0 rest fun pr hpr => h pr (List.mem_cons_of_mem _ hpr)]
      rfl

theorem priceFinalize_error_iff (c0 : ℕ) :
    ∀ l : List (F64 × ℕ),
      (∃ e, priceFinalize c0 l = .error e) ↔
        ∃ pr ∈ l, Compute.MAX_WINDOW_MISS < max pr.2 c0 - min pr.2 c0
  | [] => by simp [priceFinalize]
  | (total, ct) :: rest => by
      unfold priceFinalize
      split
      · next h =>
        simp only [List.mem_cons]
        exact ⟨fun _ => ⟨(total, ct), Or.inl rfl, h⟩, fun _ => ⟨_, rfl⟩⟩
      · next h =>
        simp only [List.mem_cons]
        constructor
        · rintro ⟨e, he⟩
          rcases hrest : priceFinalize c0 rest with e' | res
          · exact ((priceFinalize_error_iff c0 rest).1 ⟨e', hrest⟩).imp
              fun pr hpr => ⟨Or.inr hpr.1, hpr.2⟩
          · rw [hrest] at he
            exact absurd he (by simp [Bind.bind, Except.bind, pure, Except.pure])
        · rintro ⟨pr, hpr | hpr, hgt⟩
          · subst hpr; exact absurd hgt (by omega)
          · obtain ⟨e, he⟩ := (priceFinalize_error_iff c0 rest).2 ⟨pr, hpr, hgt⟩
            exact ⟨e, by rw [he]; rfl⟩

theorem priceFinalize_ok (c0 : ℕ) :
    ∀ l : List (F64 × ℕ),
      (∀ pr ∈ l, max pr.2 c0 - min pr.2 c0 ≤ Compute.MAX_WINDOW_MISS) →
      priceFinalize c0 l =
        .ok (l.map fun pr => F64.div pr.1 (F64.ofNat pr.2))
  | [], _ => rfl
  | (total, ct) :: rest, h => by
      unfold priceFinalize
      rw [if_neg (by exact not_lt_of_le (h (total, ct) (List.mem_cons_self _ _)))]
      rw [priceFinalize_ok c0 rest fun pr hpr => h pr (List.mem_cons_of_mem _ hpr)]
      rfl

/-- The initial accumulator state of `average_gen_5min_custom`. -/
def genInitState : List (List F64) × List ℕ :=
  (genInitResults, List.replicate (Compute.MINS_PER_DAY / Compute.MINS_INCR) 0)

/-- The initial accumulator state of `average_price_5min`. -/
def priceInitState : List F64 × List ℕ :=
  (List.replicate (Compute.MINS_PER_DAY / Compute.MINS_INCR) (.fin 0),
    List.replicate (Compute.MINS_PER_DAY / Compute.MINS_INCR) 0)

theorem average_gen_custom_eq (genMod : List F64 → List F64)
    (rows : List EnergyGenCsvRow) :
    Compute.average_gen_5min_custom genMod (rows.map .ok) =
      genFinalize ((genAccum genMod rows genInitState).2.getD 0 0)
        ((genAccum genMod rows genInitState).1.zip
          (genAccum genMod rows genInitState).2) := by
  unfold Compute.average_gen_5min_custom
  rw [show (genInitResults,
      List.replicate (Compute.MINS_PER_DAY / Compute.MINS_INCR) 0) = genInitState from rfl]
  rw [genLoop_map_ok]
  rfl

theorem average_price_eq (rows : List EnergyPriceCsvRow) :
    Compute.average_price_5min (rows.map .ok) =
      priceFinalize ((priceAccum rows priceInitState).2.getD 0 0)
        ((priceAccum rows priceInitState).1.zip
          (priceAccum rows priceInitState).2) := by
  unfold Compute.average_price_5min
  rw [show (List.replicate (Compute.MINS_PER_DAY / Compute.MINS_INCR) (F64.fin 0),
      List.replicate (Compute.MINS_PER_DAY / Compute.MINS_INCR) 0) = priceInitState from rfl]
  rw [priceLoop_map_ok]
  rfl

theorem exists_zip_snd_iff {α : Type} (sums : List α) (counts : List ℕ)
    (P : ℕ → Prop) (hlen : sums.length = counts.length) :
    (∃ pr ∈ sums.zip counts, P pr.2) ↔
      ∃ i < counts.length, P (counts.getD i 0) := by
  constructor
  · rintro ⟨pr, hmem, hP⟩
    obtain ⟨i, hi, heq⟩ := List.mem_iff_getElem.1 hmem
    have hic : i < counts.length := by
      have := hi; rw [List.length_zip] at this; omega
    refine ⟨i, hic, ?_⟩
    rw [List.getD_eq_getElem _ _ hic]
    rw [List.getElem_zip] at heq
    rw [show counts[i] = pr.2 by rw [← heq]]
    exact hP
  · rintro ⟨i, hi, hP⟩
    have his : i < sums.length := by omega
    have hiz : i < (sums.zip counts).length := by
      rw [List.length_zip]; omega
    refine ⟨(sums.zip counts)[i], List.getElem_mem hiz, ?_⟩
    rw [List.getElem_zip]
    rw [List.getD_eq_getElem _ _ hi] at hP
    exact hP

theorem forall_zip_snd_iff {α : Type} (sums : List α) (counts : List ℕ)
    (P : ℕ → Prop) (hlen : sums.length = counts.length) :
    (∀ pr ∈ sums.zip counts, P pr.2) ↔
      ∀ i < counts.length, P (counts.getD i 0) := by
  constructor
  · intro h i hi
    have his : i < sums.length := by omega
    have hiz : i < (sums.zip counts).length := by
      rw [List.length_zip]; omega
    have := h (sums.zip counts)[i] (List.getElem_mem hiz)
    rw [List.getElem_zip] at this
    rw [List.getD_eq_getElem _ _ hi]
    exact this
  · intro h pr hmem
    obtain ⟨i, hi, heq⟩ := List.mem_iff_getElem.1 hmem
    have hic : i < counts.length := by
      have := hi; rw [List.length_zip] at this; omega
    have := h i hic
    rw [List.getD_eq_getElem _ _ hic] at this
    rw [List.getElem_zip] at heq
    rw [show pr.2 = counts[i] by rw [← heq]]
    exact this

theorem bucket_count_eq : Compute.MINS_PER_DAY / Compute.MINS_INCR = 288 := rfl

theorem genInitState_length :
    genInitState.1.length = 288 ∧ genInitState.2.length = 288 := by
  constructor
  · simp [genInitState, genInitResults, bucket_count_eq]
  · simp [genInitState, bucket_count_eq]

theorem priceInitState_length :
    priceInitState.1.length = 288 ∧ priceInitState.2.length = 288 := by
  constructor <;> simp [priceInitState, bucket_count_eq]

theorem genAccum_length (genMod : List F64 → List F64)
    (rows : List EnergyGenCsvRow) :
    (genAccum genMod rows genInitState).1.length = 288 ∧
      (genAccum genMod rows genInitState).2.length = 288 := by
  rw [genAccum_eq_bucketAccum]
  have h := bucketAccum_length
    (fun r : EnergyGenCsvRow => Compute.time_to_idx_5min r.hour r.minute)
    (fun r old => List.zipWith F64.add old (genMod r.sources)) [] rows genInitState
  rw [h.1, h.2, genInitState_length.1, genInitState_length.2]
  exact ⟨rfl, rfl⟩

theorem priceAccum_length (rows : List EnergyPriceCsvRow) :
    (priceAccum rows priceInitState).1.length = 288 ∧
      (priceAccum rows priceInitState).2.length = 288 := by
  rw [priceAccum_eq_bucketAccum]
  have h := bucketAccum_length
    (fun r : EnergyPriceCsvRow => Compute.time_to_idx_5min r.hour r.minute)
    (fun r old => F64.add old r.lmp_avg) (.fin 0) rows priceInitState
  rw [h.1, h.2, priceInitState_length.1, priceInitState_length.2]
  exact ⟨rfl, rfl⟩

/-- C3 counterexample: with the code's single threshold `MAX_WINDOW_MISS = 12`
used for generation and price alike, an aggregation whose reference bucket has
12 samples while another bucket has 0 samples passes the completeness check
(diff 12 is not greater than 12) instead of failing as the claim states; and a
price aggregation with reference count 9 against empty buckets (diff 9, which
would exceed the claimed price threshold of 8) also succeeds. -/
theorem claim_C3_counterexample :
    exIsOk (Compute.average_gen_5min
        (List.replicate 12 (.ok (mkGenB "x" 0 0 (.fin 1))))) = true ∧
    exIsOk (Compute.average_price_5min
        (List.replicate 9 (.ok (mkPrice "x" 0 0 (.fin 1))))) = true :=
  ⟨by decide, by decide⟩

/-- C3 amended: both the generation and the price bucketed aggregators use the
single fixed threshold `MAX_WINDOW_MISS = 12`; the whole aggregation fails
with the non-uniform-distribution error exactly when some bucket's sample
count and bucket 0's sample count differ by strictly more than 12 (so a bucket
with 0 samples against a reference count of 12 passes, while 0 against 13
fails). -/
theorem claim_C3_uniformity_threshold :
    (∀ (genMod : List F64 → List F64) (rows : List EnergyGenCsvRow),
      (∃ e, Compute.average_gen_5min_custom genMod (rows.map .ok) = .error e) ↔
        ∃ i < 288, Compute.MAX_WINDOW_MISS <
          max ((genAccum genMod rows genInitState).2.getD i 0)
              ((genAccum genMod rows genInitState).2.getD 0 0) -
            min ((genAccum genMod rows genInitState).2.getD i 0)
              ((genAccum genMod rows genInitState).2.getD 0 0)) ∧
    (∀ rows : List EnergyPriceCsvRow,
      (∃ e, Compute.average_price_5min (rows.map .ok) = .error e) ↔
        ∃ i < 288, Compute.MAX_WINDOW_MISS <
          max ((priceAccum rows priceInitState).2.getD i 0)
              ((priceAccum rows priceInitState).2.getD 0 0) -
            min ((priceAccum rows priceInitState).2.getD i 0)
              ((priceAccum rows priceInitState).2.getD 0 0)) := by
  constructor
  · intro genMod rows
    rw [average_gen_custom_eq]
    rw [genFinalize_error_iff]
    refine Iff.trans (exists_zip_snd_iff _ _
      (fun c => Compute.MAX_WINDOW_MISS <
        max c ((genAccum genMod rows genInitState).2.getD 0 0) -
          min c ((genAccum genMod rows genInitState).2.getD 0 0))
      ((genAccum_length genMod rows).1.trans
        (genAccum_length genMod rows).2.symm)) ?_
    rw [(genAccum_length genMod rows).2]
  · intro rows
    rw [average_price_eq]
    rw [priceFinalize_error_iff]
    refine Iff.trans (exists_zip_snd_iff _ _
      (fun c => Compute.MAX_WINDOW_MISS <
        max c ((priceAccum rows priceInitState).2.getD 0 0) -
          min c ((priceAccum rows priceInitState).2.getD 0 0))
      ((priceAccum_length rows).1.trans
        (priceAccum_length rows).2.symm)) ?_
    rw [(priceAccum_length rows).2]

theorem getD_replicate_self {α : Type} (n i : ℕ) (a : α) :
    (List.replicate n a).getD i a = a := by
  by_cases h : i < n
  · rw [List.getD_eq_getElem _ _ (by simpa using h)]
    exact List.getElem_replicate a _
  · rw [List.getD_eq_getElem?_getD, List.getElem?_eq_none (by simpa using not_lt.1 h)]
    rfl

theorem genInitResults_getD (i : ℕ) (hi : i < 288) :
    genInitResults.getD i [] = List.replicate 14 (F64.fin 0) := by
  rw [List.getD_eq_getElem _ _
    (by simpa [genInitResults, bucket_count_eq] using hi)]
  simp only [genInitResults, List.getElem_map, List.getElem_range]
  rfl

theorem genAccum_untouched (genMod : List F64 → List F64)
    (rows : List EnergyGenCsvRow) (i : ℕ)
    (h0 : (genAccum genMod rows genInitState).2.getD i 0 = 0) :
    (genAccum genMod rows genInitState).1.getD i [] =
      genInitState.1.getD i [] := by
  rw [genAccum_eq_bucketAccum] at h0 ⊢
  refine bucketAccum_sums_of_counts_eq _ _ _ rows genInitState i
    (genInitState_length.1.trans genInitState_length.2.symm) ?_
  rw [h0]
  exact (getD_replicate_self _ i 0).symm

theorem priceAccum_untouched (rows : List EnergyPriceCsvRow) (i : ℕ)
    (h0 : (priceAccum rows priceInitState).2.getD i 0 = 0) :
    (priceAccum rows priceInitState).1.getD i (.fin 0) =
      priceInitState.1.getD i (.fin 0) := by
  rw [priceAccum_eq_bucketAccum] at h0 ⊢
  refine bucketAccum_sums_of_counts_eq _ _ _ rows priceInitState i
    (priceInitState_length.1.trans priceInitState_length.2.symm) ?_
  rw [h0]
  exact (getD_replicate_self _ i 0).symm

/-- C4: in both bucketed aggregators, a bucket whose sample count is zero is
not an error when the completeness check passes: finalization divides the
(necessarily still-initial, all-zero) sums by the zero count unguarded, and
the returned profile holds the non-finite value NaN in that slot — every
per-source entry of the slot in the generation variant, the scalar slot in
the price variant. -/
theorem claim_C4_empty_bucket_nan :
    (∀ (genMod : List F64 → List F64) (rows : List EnergyGenCsvRow) (i : ℕ),
      i < 288 →
      (genAccum genMod rows genInitState).2.getD i 0 = 0 →
      (∀ j, j < 288 → max ((genAccum genMod rows genInitState).2.getD j 0)
          ((genAccum genMod rows genInitState).2.getD 0 0) -
        min ((genAccum genMod rows genInitState).2.getD j 0)
          ((genAccum genMod rows genInitState).2.getD 0 0) ≤
        Compute.MAX_WINDOW_MISS) →
      ∃ res, Compute.average_gen_5min_custom genMod (rows.map .ok) = .ok res ∧
        res.getD i [] = List.replicate 14 F64.nan) ∧
    (∀ (rows : List EnergyPriceCsvRow) (i : ℕ),
      i < 288 →
      (priceAccum rows priceInitState).2.getD i 0 = 0 →
      (∀ j, j < 288 → max ((priceAccum rows priceInitState).2.getD j 0)
          ((priceAccum rows priceInitState).2.getD 0 0) -
        min ((priceAccum rows priceInitState).2.getD j 0)
          ((priceAccum rows priceInitState).2.getD 0 0) ≤
        Compute.MAX_WINDOW_MISS) →
      ∃ res, Compute.average_price_5min (rows.map .ok) = .ok res ∧
        res.getD i (.fin 0) = F64.nan) := by
  constructor
  · intro genMod rows i hi hzero hchk
    have hlen1 := (genAccum_length genMod rows).1
    have hlen2 := (genAccum_length genMod rows).2
    have hfa : ∀ pr ∈ (genAccum genMod rows genInitState).1.zip
        (genAccum genMod rows genInitState).2,
        max pr.2 ((genAccum genMod rows genInitState).2.getD 0 0) -
          min pr.2 ((genAccum genMod rows genInitState).2.getD 0 0) ≤
          Compute.MAX_WINDOW_MISS := by
      rw [forall_zip_snd_iff _ _
        (fun c => max c ((genAccum genMod rows genInitState).2.getD 0 0) -
          min c ((genAccum genMod rows genInitState).2.getD 0 0) ≤
          Compute.MAX_WINDOW_MISS) (hlen1.trans hlen2.symm)]
      rw [hlen2]
      exact hchk
    refine ⟨_, by rw [average_gen_custom_eq]; exact genFinalize_ok _ _ hfa, ?_⟩
    have hresl : i < (((genAccum genMod rows genInitState).1.zip
        (genAccum genMod rows genInitState).2).map fun pr =>
          pr.1.map fun val => F64.div val (F64.ofNat pr.2)).length := by
      rw [List.length_map, List.length_zip, hlen1, hlen2]
      simpa using hi
    rw [List.getD_eq_getElem _ _ hresl, List.getElem_map, List.getElem_zip]
    have hi1 : i < (genAccum genMod rows genInitState).1.length := by omega
    have hi2 : i < (genAccum genMod rows genInitState).2.length := by omega
    have hA2 : (genAccum genMod rows genInitState).2[i] = 0 := by
      rw [← List.getD_eq_getElem _ 0 hi2]
      exact hzero
    have hA1 : (genAccum genMod rows genInitState).1[i] =
        List.replicate 14 (F64.fin 0) := by
      rw [← List.getD_eq_getElem _ [] hi1]
      rw [genAccum_untouched genMod rows i hzero]
      show genInitResults.getD i [] = _
      exact genInitResults_getD i hi
    rw [hA1, hA2]
    decide
  · intro rows i hi hzero hchk
    have hlen1 := (priceAccum_length rows).1
    have hlen2 := (priceAccum_length rows).2
    have hfa : ∀ pr ∈ (priceAccum rows priceInitState).1.zip
        (priceAccum rows priceInitState).2,
        max pr.2 ((priceAccum rows priceInitState).2.getD 0 0) -
          min pr.2 ((priceAccum rows priceInitState).2.getD 0 0) ≤
          Compute.MAX_WINDOW_MISS := by
      rw [forall_zip_snd_iff _ _
        (fun c => max c ((priceAccum rows priceInitState).2.getD 0 0) -
          min c ((priceAccum rows priceInitState).2.getD 0 0) ≤
          Compute.MAX_WINDOW_MISS) (hlen1.trans hlen2.symm)]
      rw [hlen2]
      exact hchk
    refine ⟨_, by rw [average_price_eq]; exact priceFinalize_ok _ _ hfa, ?_⟩
    have hresl : i < (((priceAccum rows priceInitState).1.zip
        (priceAccum rows priceInitState).2).map fun pr =>
          F64.div pr.1 (F64.ofNat pr.2)).length := by
      rw [List.length_map, List.length_zip, hlen1, hlen2]
      simpa using hi
    rw [List.getD_eq_getElem _ _ hresl, List.getElem_map, List.getElem_zip]
    have hi1 : i < (priceAccum rows priceInitState).1.length := by omega
    have hi2 : i < (priceAccum rows priceInitState).2.length := by omega
    have hA2 : (priceAccum rows priceInitState).2[i] = 0 := by
      rw [← List.getD_eq_getElem _ 0 hi2]
      exact hzero
    have hA1 : (priceAccum rows priceInitState).1[i] = F64.fin 0 := by
      rw [← List.getD_eq_getElem _ (F64.fin 0) hi1]
      rw [priceAccum_untouched rows i hzero]
      show (List.replicate (Compute.MINS_PER_DAY / Compute.MINS_INCR)
        (F64.fin 0)).getD i (F64.fin 0) = _
      exact getD_replicate_self _ i (F64.fin 0)
    rw [hA1, hA2]
    decide

theorem claim_C4_empty_bucket_nan_witness :
    (∃ res, Compute.average_gen_5min_custom (fun v => v)
        ((List.replicate 5 (mkGenB "x" 0 0 (.fin 1))).map .ok) = .ok res ∧
      res.getD 1 [] = List.replicate 14 F64.nan) ∧
    (∃ res, Compute.average_price_5min
        ((List.replicate 5 (mkPrice "x" 0 0 (.fin 1))).map .ok) = .ok res ∧
      res.getD 1 (.fin 0) = F64.nan) :=
  ⟨claim_C4_empty_bucket_nan.1 (fun v => v) (List.replicate 5 (mkGenB "x" 0 0 (.fin 1)))
      1 (by decide) (by decide) (by decide),
    claim_C4_empty_bucket_nan.2 (List.replicate 5 (mkPrice "x" 0 0 (.fin 1)))
      1 (by decide) (by decide) (by decide)⟩

theorem valueFinalize_getD :
    ∀ (accs qtys : List F64) (i : ℕ), accs.length = qtys.length →
      (valueFinalize accs qtys).getD i (.fin 0) =
        if qtys.getD i (.fin 0) ≠ F64.fin 0 then
          F64.div (accs.getD i (.fin 0)) (qtys.getD i (.fin 0))
        else accs.getD i (.fin 0)
  | [], [], i, _ => by simp [valueFinalize]
  | [], _ :: _, _, h => by simp at h
  | _ :: _, [], _, h => by simp at h
  | a :: accs, q :: qtys, 0, _ => by simp [valueFinalize]
  | a :: accs, q :: qtys, i + 1, h => by
      have ih := valueFinalize_getD accs qtys i (by simpa using h)
      simpa [valueFinalize] using ih

theorem valueFoldl_zero (genMod : List F64 → List F64)
    (hlen : ∀ v : List F64, (genMod v).length = v.length) (i : ℕ) (hi : i < 14) :
    ∀ (pairs : List (EnergyPriceCsvRow × EnergyGenCsvRow))
      (st : List F64 × List F64),
      st.1.length = 14 → st.2.length = 14 →
      st.1.getD i (.fin 0) = .fin 0 → st.2.getD i (.fin 0) = .fin 0 →
      (∀ pr ∈ pairs, (genMod pr.2.sources).getD i (.fin 0) = F64.fin 0 ∧
        pr.1.lmp_avg.isFinite = true) →
      (pairs.foldl (valueStep genMod) st).1.getD i (.fin 0) = .fin 0 ∧
        (pairs.foldl (valueStep genMod) st).2.getD i (.fin 0) = .fin 0
  | [], _, _, _, h1, h2, _ => ⟨h1, h2⟩
  | pr :: rest, st, hl1, hl2, h1, h2, hall => by
      have hs : (genMod pr.2.sources).length = 14 := by
        rw [hlen, sources_length]
      have hstep := valueStep_length genMod st pr hs hl1 hl2
      have hgetd := valueStep_getD genMod st pr i hi hs hl1 hl2
      obtain ⟨hq0, hfin⟩ := hall pr (List.mem_cons_self _ _)
      obtain ⟨p, hp⟩ : ∃ p, pr.1.lmp_avg = F64.fin p := by
        rcases hpr : pr.1.lmp_avg <;> simp [F64.isFinite, hpr] at hfin ⊢
      have hstep1 : (valueStep genMod st pr).1.getD i (.fin 0) = .fin 0 := by
        rw [hgetd.2, h1, hq0, hp]
        simp [F64.mul, F64.add]
      have hstep2 : (valueStep genMod st pr).2.getD i (.fin 0) = .fin 0 := by
        rw [hgetd.1, h2, hq0]
        simp [F64.abs, F64.add]
      exact valueFoldl_zero genMod hlen i hi rest (valueStep genMod st pr)
        hstep.1 hstep.2 hstep1 hstep2
        fun x hx => hall x (List.mem_cons_of_mem _ hx)

/-- C6: in Value Aggregator finalization, a source whose accumulated quantity
total is exactly zero is left undivided (its reported slot is the accumulated
value total itself, so no division happens), while a source with a nonzero
quantity total reports `value_total / quantity_total`; consequently a source
whose (transformed) quantity is zero in every aligned pair — with finite
prices — reports average 0 and total quantity 0 rather than failing. -/
theorem claim_C6_zero_quantity_guard :
    (∀ (genMod : List F64 → List F64)
        (ps : List (Except String EnergyPriceCsvRow))
        (gs : List (Except String EnergyGenCsvRow)) (i : Fin 14),
      (∀ v : List F64, (genMod v).length = v.length) →
      ((valueAccum genMod (pgList ps gs)).2.getD i.1 (.fin 0) = F64.fin 0 →
        (Compute.average_value_5min_custom genMod ps gs).1.getD i.1 (.fin 0) =
          (valueAccum genMod (pgList ps gs)).1.getD i.1 (.fin 0)) ∧
      ((valueAccum genMod (pgList ps gs)).2.getD i.1 (.fin 0) ≠ F64.fin 0 →
        (Compute.average_value_5min_custom genMod ps gs).1.getD i.1 (.fin 0) =
          F64.div ((valueAccum genMod (pgList ps gs)).1.getD i.1 (.fin 0))
            ((valueAccum genMod (pgList ps gs)).2.getD i.1 (.fin 0)))) ∧
    (∀ (genMod : List F64 → List F64)
        (ps : List (Except String EnergyPriceCsvRow))
        (gs : List (Except String EnergyGenCsvRow)) (i : Fin 14),
      (∀ v : List F64, (genMod v).length = v.length) →
      (∀ pr ∈ pgList ps gs, (genMod pr.2.sources).getD i.1 (.fin 0) = F64.fin 0 ∧
        pr.1.lmp_avg.isFinite = true) →
      (Compute.average_value_5min_custom genMod ps gs).1.getD i.1 (.fin 0) =
        F64.fin 0 ∧
      (Compute.average_value_5min_custom genMod ps gs).2.getD i.1 (.fin 0) =
        F64.fin 0) := by
  constructor
  · intro genMod ps gs i hlen
    have hacc := valueAccum_length genMod hlen (pgList ps gs)
    have hfin := valueFinalize_getD (valueAccum genMod (pgList ps gs)).1
      (valueAccum genMod (pgList ps gs)).2 i.1 (hacc.1.trans hacc.2.symm)
    constructor
    · intro hz
      show (valueFinalize _ _).getD i.1 (.fin 0) = _
      rw [hfin, hz, if_neg (by simp)]
    · intro hnz
      show (valueFinalize _ _).getD i.1 (.fin 0) = _
      rw [hfin, if_pos hnz]
  · intro genMod ps gs i hlen hall
    have hz := valueFoldl_zero genMod hlen i.1 i.2 (pgList ps gs)
      (List.replicate 14 (.fin 0), List.replicate 14 (.fin 0))
      (by simp) (by simp) (getD_replicate_self _ _ _) (getD_replicate_self _ _ _)
      hall
    have hacc := valueAccum_length genMod hlen (pgList ps gs)
    have hfin := valueFinalize_getD (valueAccum genMod (pgList ps gs)).1
      (valueAccum genMod (pgList ps gs)).2 i.1 (hacc.1.trans hacc.2.symm)
    constructor
    · show (valueFinalize _ _).getD i.1 (.fin 0) = _
      rw [hfin]
      rw [show (valueAccum genMod (pgList ps gs)).2.getD i.1 (.fin 0) = .fin 0 from hz.2]
      rw [if_neg (by simp)]
      exact hz.1
    · exact hz.2

theorem claim_C6_zero_quantity_guard_witness :
    (Compute.average_value_5min
        [.ok (mkPrice "2024-01-01 00:00:00" 0 0 (.fin 2))]
        [.ok (mkGenB "2024-01-01 00:00:00" 0 0 (.fin 0))]).1.getD 1 (.fin 0) =
      F64.fin 0 ∧
    (Compute.average_value_5min
        [.ok (mkPrice "2024-01-01 00:00:00" 0 0 (.fin 2))]
        [.ok (mkGenB "2024-01-01 00:00:00" 0 0 (.fin 0))]).2.getD 1 (.fin 0) =
      F64.fin 0 :=
  claim_C6_zero_quantity_guard.2 (fun v => v)
    [.ok (mkPrice "2024-01-01 00:00:00" 0 0 (.fin 2))]
    [.ok (mkGenB "2024-01-01 00:00:00" 0 0 (.fin 0))]
    ⟨1, by decide⟩ (fun _ => rfl) (by decide)

/-- Replace only the start-timestamp string of a generation record (used to
state that the Bucketed Aggregator never examines that string). -/
def setStartTs (ts : String) (r : EnergyGenCsvRow) : EnergyGenCsvRow :=
  { r with local_timestamp_start := ts }

theorem pgListFuel_err_left (fuel : ℕ) (e : String)
    (ps : List (Except String EnergyPriceCsvRow))
    (gs : List (Except String EnergyGenCsvRow)) :
    pgListFuel fuel (.error e :: ps) gs = [] := by
  cases fuel
  · rfl
  · cases gs with
    | nil => rfl
    | cons hd tl => cases hd <;> rfl

theorem pgListFuel_err_right (fuel : ℕ) (e : String)
    (ps : List (Except String EnergyPriceCsvRow))
    (gs : List (Except String EnergyGenCsvRow)) :
    pgListFuel fuel ps (.error e :: gs) = [] := by
  cases fuel
  · rfl
  · cases ps with
    | nil => rfl
    | cons hd tl => cases hd <;> rfl

theorem pgListFuel_parse_none_left (fuel : ℕ) (p : EnergyPriceCsvRow)
    (ps : List (Except String EnergyPriceCsvRow))
    (gs : List (Except String EnergyGenCsvRow))
    (h : parseTimestamp p.timestamp = none) :
    pgListFuel fuel (.ok p :: ps) gs = [] := by
  cases fuel
  · rfl
  · cases gs with
    | nil => rfl
    | cons hd tl =>
        cases hd with
        | error e => rfl
        | ok g => simp [pgListFuel, h]

theorem pgListFuel_parse_none_right (fuel : ℕ) (g : EnergyGenCsvRow)
    (ps : List (Except String EnergyPriceCsvRow))
    (gs : List (Except String EnergyGenCsvRow))
    (h : parseTimestamp g.local_timestamp_start = none) :
    pgListFuel fuel ps (.ok g :: gs) = [] := by
  cases fuel
  · rfl
  · cases ps with
    | nil => rfl
    | cons hd tl =>
        cases hd with
        | error e => rfl
        | ok p =>
            rcases hp : parseTimestamp p.timestamp with _ | pt
            · simp [pgListFuel, hp]
            · simp [pgListFuel, hp, h]

theorem genLoop_err (genMod : List F64 → List F64) :
    ∀ (pre : List EnergyGenCsvRow) (st : List (List F64) × List ℕ) (e : String)
      (rest : List (Except String EnergyGenCsvRow)),
      genLoop genMod (pre.map .ok ++ .error e :: rest) st = .error e
  | [], _, _, _ => rfl
  | _ :: pre', st, e, rest => genLoop_err genMod pre' _ e rest

theorem genAccum_setStartTs (genMod : List F64 → List F64) (ts : String) :
    ∀ (rows : List EnergyGenCsvRow) (st : List (List F64) × List ℕ),
      genAccum genMod (rows.map (setStartTs ts)) st = genAccum genMod rows st
  | [], _ => rfl
  | row :: rest, st => by
      rw [List.map_cons]
      show genAccum genMod (List.map (setStartTs ts) rest)
          (genStep genMod st (setStartTs ts row)) =
        genAccum genMod rest (genStep genMod st row)
      rw [show genStep genMod st (setStartTs ts row) = genStep genMod st row from rfl]
      exact genAccum_setStartTs genMod ts rest _

/-- C8 counterexample: a well-decoded generation record whose timestamp string
fails to parse ends the Aligned Pair Iterator (no pairs, no error), but the
Bucketed Aggregator — which never parses that string and keys on the record's
pre-parsed hour/minute — aggregates the same record successfully instead of
propagating an error as the claim states. -/
theorem claim_C8_counterexample :
    pgList [.ok (mkPrice "2024-01-01 00:00:00" 0 0 (.fin 2))]
      [.ok (mkGenB "not-a-timestamp" 0 0 (.fin 1))] = [] ∧
    exIsOk (Compute.average_gen_5min [.ok (mkGenB "not-a-timestamp" 0 0 (.fin 1))]) =
      true :=
  ⟨by decide, by decide⟩

/-- C8 amended: a decode error on either stream, or a timestamp that fails to
parse on either stream, ends the Aligned Pair Iterator as a soft
end-of-stream (it yields no pairs from that point and has no error channel);
a decode error encountered by the Bucketed Aggregator is propagated as that
error, aborting the aggregation with no partial result. A record whose
timestamp string merely fails to parse is not detected by the Bucketed
Aggregator: the timestamp string is never examined there, so the record is
aggregated like any other. -/
theorem claim_C8_soft_end_vs_error :
    (∀ (e : String) ps gs, pgList (.error e :: ps) gs = []) ∧
    (∀ (e : String) ps gs, pgList ps (.error e :: gs) = []) ∧
    (∀ p ps gs, parseTimestamp p.timestamp = none →
      pgList (.ok p :: ps) gs = []) ∧
    (∀ g ps gs, parseTimestamp g.local_timestamp_start = none →
      pgList ps (.ok g :: gs) = []) ∧
    (∀ (genMod : List F64 → List F64) (pre : List EnergyGenCsvRow) (e : String)
        (rest : List (Except String EnergyGenCsvRow)),
      Compute.average_gen_5min_custom genMod (pre.map .ok ++ .error e :: rest) =
        .error e) ∧
    (∀ (genMod : List F64 → List F64) (ts : String) (rows : List EnergyGenCsvRow),
      Compute.average_gen_5min_custom genMod ((rows.map (setStartTs ts)).map .ok) =
        Compute.average_gen_5min_custom genMod (rows.map .ok)) := by
  refine ⟨fun e ps gs => pgListFuel_err_left _ e ps gs,
    fun e ps gs => pgListFuel_err_right _ e ps gs,
    fun p ps gs h => pgListFuel_parse_none_left _ p ps gs h,
    fun g ps gs h => pgListFuel_parse_none_right _ g ps gs h,
    fun genMod pre e rest => ?_, fun genMod ts rows => ?_⟩
  · unfold Compute.average_gen_5min_custom
    rw [genLoop_err]
    rfl
  · rw [average_gen_custom_eq, average_gen_custom_eq, genAccum_setStartTs]

theorem claim_C8_soft_end_vs_error_witness :
    pgList [.ok (mkPrice "bad" 0 0 (.fin 1))]
      [.ok (mkGenB "2024-01-01 00:00:00" 0 0 (.fin 1))] = [] ∧
    pgList [.ok (mkPrice "2024-01-01 00:00:00" 0 0 (.fin 1))]
      [.ok (mkGenB "bad" 0 0 (.fin 1))] = [] :=
  ⟨claim_C8_soft_end_vs_error.2.2.1 (mkPrice "bad" 0 0 (.fin 1)) _ _ (by decide),
    claim_C8_soft_end_vs_error.2.2.2.1 (mkGenB "bad" 0 0 (.fin 1)) _ _ (by decide)⟩

/-- C9 counterexample: the persisted value table contains a data row for the
synthetic "Total" category. With any 14-slot profile the written table has a
header plus 14 rows, and the first data row's source-name column is "Total",
contradicting the claim that no row is written for the synthetic total. -/
theorem claim_C9_counterexample :
    (write_energy_value_averages (List.replicate 14 (.fin 0))
        (List.replicate 14 (.fin 0))).length = 15 ∧
    ((write_energy_value_averages (List.replicate 14 (.fin 0))
        (List.replicate 14 (.fin 0))).getD 1 []).getD 0 "" = "Total" :=
  ⟨by decide, by decide⟩

/-- C9 amended: the persisted value profile is a three-column table (source
name, average price formatted to 2 decimal places, total quantity) with a
header row and exactly one data row per generation source category — the
synthetic "Total" category included (it is the chart-rendering variant, not
the persisted table, that omits the total). -/
theorem claim_C9_value_table :
    (∀ averages qtys : List F64, averages.length = 14 → qtys.length = 14 →
      (write_energy_value_averages averages qtys).length = 15 ∧
      (∀ row ∈ write_energy_value_averages averages qtys, row.length = 3) ∧
      (write_energy_value_averages averages qtys).map (fun row => row.getD 0 "") =
        "source" :: EnergyGenCsvRow.source_keys) ∧
    EnergyGenCsvRow.source_keys.getD 0 "" = "Total" ∧
    EnergyGenCsvRow.source_keys.length = 14 := by
  refine ⟨fun averages qtys ha hq => ⟨?_, ?_, ?_⟩, rfl, rfl⟩
  · simp [write_energy_value_averages, List.length_zip, ha, hq]
    rfl
  · intro row hrow
    rcases List.mem_cons.1 hrow with h | h
    · rw [h]; rfl
    · obtain ⟨pr, _, hpr⟩ := List.mem_map.1 h
      rw [← hpr]; rfl
  · unfold write_energy_value_averages
    rw [List.map_cons, List.map_map]
    congr 1
    have heq : ((fun row : List String => List.getD row 0 "") ∘
        fun row : String × F64 × F64 =>
          [row.1, fmt2 row.2.1, fmtQty row.2.2]) = Prod.fst := rfl
    rw [heq]
    exact List.map_fst_zip _ _ (by simp [List.length_zip, ha, hq]; rfl)

theorem claim_C9_value_table_witness :
    ((write_energy_value_averages (List.replicate 14 (.fin 1))
        (List.replicate 14 (.fin 2))).length = 15 ∧
      (∀ row ∈ write_energy_value_averages (List.replicate 14 (.fin 1))
        (List.replicate 14 (.fin 2)), row.length = 3) ∧
      (write_energy_value_averages (List.replicate 14 (.fin 1))
          (List.replicate 14 (.fin 2))).map (fun row => row.getD 0 "") =
        "source" :: EnergyGenCsvRow.source_keys) :=
  claim_C9_value_table.1 (List.replicate 14 (.fin 1)) (List.replicate 14 (.fin 2))
    (by decide) (by decide)

theorem pgListFuel_nil_left (fuel : ℕ)
    (gs : List (Except String EnergyGenCsvRow)) :
    pgListFuel fuel [] gs = [] := by
  cases fuel
  · rfl
  · cases gs with
    | nil => rfl
    | cons hd tl => cases hd <;> rfl

theorem pgListFuel_nil_right (fuel : ℕ)
    (ps : List (Except String EnergyPriceCsvRow)) :
    pgListFuel fuel ps [] = [] := by
  cases fuel
  · rfl
  · cases ps with
    | nil => rfl
    | cons hd tl => cases hd <;> rfl

theorem pgListFuel_congr :
    ∀ (f1 f2 : ℕ) (ps : List (Except String EnergyPriceCsvRow))
      (gs : List (Except String EnergyGenCsvRow)),
      ps.length + gs.length ≤ f1 → ps.length + gs.length ≤ f2 →
      pgListFuel f1 ps gs = pgListFuel f2 ps gs
  | 0, f2, ps, gs, h1, _ => by
      obtain rfl : ps = [] := List.length_eq_zero.1 (by omega)
      obtain rfl : gs = [] := List.length_eq_zero.1 (by omega)
      rw [pgListFuel_nil_left, pgListFuel_nil_left]
  | _ + 1, 0, ps, gs, _, h2 => by
      obtain rfl : ps = [] := List.length_eq_zero.1 (by omega)
      obtain rfl : gs = [] := List.length_eq_zero.1 (by omega)
      rw [pgListFuel_nil_left, pgListFuel_nil_left]
  | n + 1, m + 1, [], gs, _, _ => by
      rw [pgListFuel_nil_left, pgListFuel_nil_left]
  | n + 1, m + 1, ps, [], _, _ => by
      rw [pgListFuel_nil_right, pgListFuel_nil_right]
  | n + 1, m + 1, .error e :: ps, gs, _, _ => by
      rw [pgListFuel_err_left, pgListFuel_err_left]
  | n + 1, m + 1, ps, .error e :: gs, _, _ => by
      rw [pgListFuel_err_right, pgListFuel_err_right]
  | n + 1, m + 1, .ok p :: ps, .ok g :: gs, h1, h2 => by
      simp only [List.length_cons] at h1 h2
      show (match parseTimestamp p.timestamp,
          parseTimestamp g.local_timestamp_start with
        | some pt, some gt =>
          match compare (tsKey pt) (tsKey gt) with
          | .eq => (p, g) :: pgListFuel n ps gs
          | .gt => pgListFuel n (.ok p :: ps) gs
          | .lt => pgListFuel n ps (.ok g :: gs)
        | _, _ => []) =
        (match parseTimestamp p.timestamp,
            parseTimestamp g.local_timestamp_start with
          | some pt, some gt =>
            match compare (tsKey pt) (tsKey gt) with
            | .eq => (p, g) :: pgListFuel m ps gs
            | .gt => pgListFuel m (.ok p :: ps) gs
            | .lt => pgListFuel m ps (.ok g :: gs)
          | _, _ => [])
      rcases parseTimestamp p.timestamp with _ | pt
      · rfl
      rcases parseTimestamp g.local_timestamp_start with _ | gt
      · rfl
      show (match compare (tsKey pt) (tsKey gt) with
          | .eq => (p, g) :: pgListFuel n ps gs
          | .gt => pgListFuel n (.ok p :: ps) gs
          | .lt => pgListFuel n ps (.ok g :: gs)) =
        (match compare (tsKey pt) (tsKey gt) with
          | .eq => (p, g) :: pgListFuel m ps gs
          | .gt => pgListFuel m (.ok p :: ps) gs
          | .lt => pgListFuel m ps (.ok g :: gs))
      rcases hc : compare (tsKey pt) (tsKey gt)
      · exact pgListFuel_congr n m ps (.ok g :: gs)
          (by simp only [List.length_cons]; omega)
          (by simp only [List.length_cons]; omega)
      · rw [pgListFuel_congr n m ps gs (by omega) (by omega)]
      · exact pgListFuel_congr n m (.ok p :: ps) gs
          (by simp only [List.length_cons]; omega)
          (by simp only [List.length_cons]; omega)

theorem pgList_cons_cons (p : EnergyPriceCsvRow)
    (ps : List (Except String EnergyPriceCsvRow)) (g : EnergyGenCsvRow)
    (gs : List (Except String EnergyGenCsvRow)) (pt gt : Timestamp)
    (hp : parseTimestamp p.timestamp = some pt)
    (hg : parseTimestamp g.local_timestamp_start = some gt) :
    pgList (.ok p :: ps) (.ok g :: gs) =
      match compare (tsKey pt) (tsKey gt) with
      | .eq => (p, g) :: pgList ps gs
      | .gt => pgList (.ok p :: ps) gs
      | .lt => pgList ps (.ok g :: gs) := by
  show pgListFuel ((Except.ok p :: ps).length + (Except.ok g :: gs).length) _ _ = _
  rw [pgListFuel_congr ((Except.ok p :: ps).length + (Except.ok g :: gs).length)
    ((ps.length + gs.length + 1) + 1) _ _ (le_refl _)
    (by simp only [List.length_cons]; omega)]
  show (match parseTimestamp p.timestamp,
      parseTimestamp g.local_timestamp_start with
    | some pt', some gt' =>
      match compare (tsKey pt') (tsKey gt') with
      | .eq => (p, g) :: pgListFuel (ps.length + gs.length + 1) ps gs
      | .gt => pgListFuel (ps.length + gs.length + 1) (.ok p :: ps) gs
      | .lt => pgListFuel (ps.length + gs.length + 1) ps (.ok g :: gs)
    | _, _ => []) = _
  rw [hp, hg]
  show (match compare (tsKey pt) (tsKey gt) with
      | .eq => (p, g) :: pgListFuel (ps.length + gs.length + 1) ps gs
      | .gt => pgListFuel (ps.length + gs.length + 1) (.ok p :: ps) gs
      | .lt => pgListFuel (ps.length + gs.length + 1) ps (.ok g :: gs)) = _
  rcases hc : compare (tsKey pt) (tsKey gt)
  · show pgListFuel (ps.length + gs.length + 1) ps (.ok g :: gs) =
      pgList ps (.ok g :: gs)
    exact pgListFuel_congr _ _ _ _ (by simp only [List.length_cons]; omega)
      (le_refl _)
  · show (p, g) :: pgListFuel (ps.length + gs.length + 1) ps gs =
      (p, g) :: pgList ps gs
    rw [pgListFuel_congr (ps.length + gs.length + 1) (ps.length + gs.length)
      ps gs (by omega) (le_refl _)]
    rfl
  · show pgListFuel (ps.length + gs.length + 1) (.ok p :: ps) gs =
      pgList (.ok p :: ps) gs
    exact pgListFuel_congr _ _ _ _ (by simp only [List.length_cons]; omega)
      (by simp only [List.length_cons]; omega)

theorem specAlignedPairs_nil_right :
    ∀ ps : List EnergyPriceCsvRow, specAlignedPairs ps [] = []
  | [] => rfl
  | p :: ps => by
      show List.filterMap _ (p :: ps) = []
      rw [List.filterMap_cons]
      simp only [List.find?_nil, Option.map_none']
      exact specAlignedPairs_nil_right ps

theorem specAlignedPairs_drop_gen (g : EnergyGenCsvRow)
    (gs : List EnergyGenCsvRow) :
    ∀ ps : List EnergyPriceCsvRow,
      (∀ p ∈ ps, parseTimestamp p.timestamp ≠
        parseTimestamp g.local_timestamp_start) →
      specAlignedPairs ps (g :: gs) = specAlignedPairs ps gs
  | [], _ => rfl
  | p :: ps, h => by
      show List.filterMap _ (p :: ps) = List.filterMap _ (p :: ps)
      rw [List.filterMap_cons, List.filterMap_cons]
      rw [List.find?_cons_of_neg _
        (by simpa using h p (List.mem_cons_self _ _))]
      rw [show List.filterMap _ ps = specAlignedPairs ps (g :: gs) from rfl,
        show List.filterMap _ ps = specAlignedPairs ps gs from rfl]
      rw [specAlignedPairs_drop_gen g gs ps
        fun x hx => h x (List.mem_cons_of_mem _ hx)]

theorem specAlignedPairs_drop_price (p : EnergyPriceCsvRow)
    (ps : List EnergyPriceCsvRow) (gs : List EnergyGenCsvRow)
    (h : ∀ g ∈ gs, parseTimestamp p.timestamp ≠
      parseTimestamp g.local_timestamp_start) :
    specAlignedPairs (p :: ps) gs = specAlignedPairs ps gs := by
  show List.filterMap _ (p :: ps) = _
  rw [List.filterMap_cons]
  rw [List.find?_eq_none.2 fun g hg => by simpa using h g hg]
  rfl

theorem specAlignedPairs_cons_eq (p : EnergyPriceCsvRow)
    (ps : List EnergyPriceCsvRow) (g : EnergyGenCsvRow)
    (gs : List EnergyGenCsvRow)
    (heq : parseTimestamp p.timestamp = parseTimestamp g.local_timestamp_start) :
    specAlignedPairs (p :: ps) (g :: gs) =
      (p, g) :: specAlignedPairs ps (g :: gs) := by
  show List.filterMap _ (p :: ps) = _
  rw [List.filterMap_cons]
  rw [List.find?_cons_of_pos _ (by simpa using heq)]
  rfl

theorem parse_ne_of_key_ne {s1 s2 : String} {t1 t2 : Timestamp}
    (h1 : parseTimestamp s1 = some t1) (h2 : parseTimestamp s2 = some t2)
    (hne : tsKey t1 ≠ tsKey t2) : parseTimestamp s1 ≠ parseTimestamp s2 := by
  rw [h1, h2]
  intro hc
  exact hne (by rw [Option.some.inj hc])

theorem specAlignedPairs_pairwise (ps : List EnergyPriceCsvRow)
    (gs : List EnergyGenCsvRow)
    (sp : ps.Pairwise fun a b => priceKey a < priceKey b) :
    (specAlignedPairs ps gs).Pairwise fun x y => priceKey x.1 < priceKey y.1 := by
  refine List.Pairwise.filterMap _ (fun a b hab x hx y hy => ?_) sp
  obtain ⟨gx, _, hgx⟩ := Option.map_eq_some'.1 (Option.mem_def.1 hx)
  obtain ⟨gy, _, hgy⟩ := Option.map_eq_some'.1 (Option.mem_def.1 hy)
  rw [← hgx, ← hgy]
  exact hab

theorem pgList_eq_specAlignedPairs_aux :
    ∀ (n : ℕ) (ps : List EnergyPriceCsvRow) (gs : List EnergyGenCsvRow),
      ps.length + gs.length ≤ n →
      (∀ p ∈ ps, (parseTimestamp p.timestamp).isSome = true) →
      (∀ g ∈ gs, (parseTimestamp g.local_timestamp_start).isSome = true) →
      ps.Pairwise (fun a b => priceKey a < priceKey b) →
      gs.Pairwise (fun a b => genKey a < genKey b) →
      pgList (ps.map .ok) (gs.map .ok) = specAlignedPairs ps gs := by
  intro n
  induction n with
  | zero =>
      intro ps gs hn _ _ _ _
      obtain rfl : ps = [] := List.length_eq_zero.1 (by omega)
      obtain rfl : gs = [] := List.length_eq_zero.1 (by omega)
      rfl
  | succ n ih =>
      intro ps gs hn hp hg sp sg
      cases ps with
      | nil =>
          show pgListFuel _ [] _ = _
          rw [pgListFuel_nil_left]
          rfl
      | cons p ps' =>
        cases gs with
        | nil =>
            show pgListFuel _ _ [] = _
            rw [pgListFuel_nil_right, specAlignedPairs_nil_right]
        | cons g gs' =>
          obtain ⟨pt, hpt⟩ := Option.isSome_iff_exists.1 (hp p (List.mem_cons_self _ _))
          obtain ⟨gt, hgt⟩ := Option.isSome_iff_exists.1 (hg g (List.mem_cons_self _ _))
          have hpk : priceKey p = tsKey pt := by simp [priceKey, hpt]
          have hgk : genKey g = tsKey gt := by simp [genKey, hgt]
          have hptail : ∀ x ∈ ps', (parseTimestamp x.timestamp).isSome = true :=
            fun x hx => hp x (List.mem_cons_of_mem _ hx)
          have hgtail : ∀ x ∈ gs', (parseTimestamp x.local_timestamp_start).isSome = true :=
            fun x hx => hg x (List.mem_cons_of_mem _ hx)
          have spc := List.pairwise_cons.1 sp
          have sgc := List.pairwise_cons.1 sg
          simp only [List.length_cons] at hn
          rw [List.map_cons, List.map_cons, pgList_cons_cons p _ g _ pt gt hpt hgt]
          rcases hc : compare (tsKey pt) (tsKey gt)
          · -- price timestamp earlier: the price record has no counterpart
            have hlt : tsKey pt < tsKey gt := Nat.compare_eq_lt.1 hc
            show pgList (List.map Except.ok ps') (Except.ok g :: List.map Except.ok gs') = _
            rw [specAlignedPairs_drop_price p ps' (g :: gs') ?hne]
            case hne =>
              intro g' hg'
              rcases List.mem_cons.1 hg' with rfl | hg'
              · exact parse_ne_of_key_ne hpt hgt (by omega)
              · obtain ⟨gt', hgt'⟩ := Option.isSome_iff_exists.1 (hgtail g' hg')
                have : genKey g < genKey g' := sgc.1 g' hg'
                have hgk' : genKey g' = tsKey gt' := by simp [genKey, hgt']
                exact parse_ne_of_key_ne hpt hgt' (by omega)
            rw [← List.map_cons]
            exact ih ps' (g :: gs') (by simp only [List.length_cons]; omega)
              hptail hg spc.2 sg
          · -- equal timestamps: emit the pair, advance both
            have hkeq : tsKey pt = tsKey gt := Nat.compare_eq_eq.1 hc
            have hteq : pt = gt := tsKey_inj_of_valid (parseTimestamp_valid hpt)
              (parseTimestamp_valid hgt) hkeq
            have hpeq : parseTimestamp p.timestamp =
                parseTimestamp g.local_timestamp_start := by
              rw [hpt, hgt, hteq]
            show (p, g) :: pgList (List.map Except.ok ps') (List.map Except.ok gs') = _
            rw [specAlignedPairs_cons_eq p ps' g gs' hpeq]
            rw [specAlignedPairs_drop_gen g gs' ps' ?hne2]
            case hne2 =>
              intro p' hp'
              obtain ⟨pt', hpt'⟩ := Option.isSome_iff_exists.1 (hptail p' hp')
              have : priceKey p < priceKey p' := spc.1 p' hp'
              have hpk' : priceKey p' = tsKey pt' := by simp [priceKey, hpt']
              exact parse_ne_of_key_ne hpt' hgt (by omega)
            congr 1
            exact ih ps' gs' (by omega) hptail hgtail spc.2 sgc.2
          · -- generation timestamp earlier: the generation record has no counterpart
            have hgt2 : tsKey gt < tsKey pt := Nat.compare_eq_gt.1 hc
            show pgList (Except.ok p :: List.map Except.ok ps') (List.map Except.ok gs') = _
            rw [specAlignedPairs_drop_gen g gs' (p :: ps') ?hne3]
            case hne3 =>
              intro p' hp'
              rcases List.mem_cons.1 hp' with rfl | hp'
              · exact parse_ne_of_key_ne hpt hgt (by omega)
              · obtain ⟨pt', hpt'⟩ := Option.isSome_iff_exists.1 (hptail p' hp')
                have : priceKey p < priceKey p' := spc.1 p' hp'
                have hpk' : priceKey p' = tsKey pt' := by simp [priceKey, hpt']
                exact parse_ne_of_key_ne hpt' hgt (by omega)
            rw [← List.map_cons]
            exact ih (p :: ps') gs' (by simp only [List.length_cons]; omega)
              hp hgtail sp sgc.2

/-- C1: for input streams that decode cleanly, parse cleanly, and are each
strictly ascending by parsed timestamp, the Aligned Pair Iterator emits
exactly the pairs whose timestamp strings parse to equal date-times (each
price record matched with the generation record bearing the equal timestamp),
silently skipping every record without a counterpart, and the emitted pairs
are in ascending timestamp order. -/
theorem claim_C1_aligned_pair_iterator (ps : List EnergyPriceCsvRow)
    (gs : List EnergyGenCsvRow)
    (hp : ∀ p ∈ ps, (parseTimestamp p.timestamp).isSome = true)
    (hg : ∀ g ∈ gs, (parseTimestamp g.local_timestamp_start).isSome = true)
    (sp : ps.Pairwise fun a b => priceKey a < priceKey b)
    (sg : gs.Pairwise fun a b => genKey a < genKey b) :
    pgList (ps.map .ok) (gs.map .ok) = specAlignedPairs ps gs ∧
      (pgList (ps.map .ok) (gs.map .ok)).Pairwise
        fun x y => priceKey x.1 < priceKey y.1 := by
  have hmain := pgList_eq_specAlignedPairs_aux (ps.length + gs.length) ps gs
    (le_refl _) hp hg sp sg
  exact ⟨hmain, hmain ▸ specAlignedPairs_pairwise ps gs sp⟩

theorem claim_C1_aligned_pair_iterator_witness :
    pgList ([mkPrice "2024-01-01 00:00:00" 0 0 (.fin 1),
        mkPrice "2024-01-01 00:05:00" 0 5 (.fin 2),
        mkPrice "2024-01-01 00:10:00" 0 10 (.fin 3)].map .ok)
      ([mkGenB "2024-01-01 00:00:00" 0 0 (.fin 4),
        mkGenB "2024-01-01 00:10:00" 0 10 (.fin 5)].map .ok) =
      specAlignedPairs
        [mkPrice "2024-01-01 00:00:00" 0 0 (.fin 1),
          mkPrice "2024-01-01 00:05:00" 0 5 (.fin 2),
          mkPrice "2024-01-01 00:10:00" 0 10 (.fin 3)]
        [mkGenB "2024-01-01 00:00:00" 0 0 (.fin 4),
          mkGenB "2024-01-01 00:10:00" 0 10 (.fin 5)] ∧
    specAlignedPairs
        [mkPrice "2024-01-01 00:00:00" 0 0 (.fin 1),
          mkPrice "2024-01-01 00:05:00" 0 5 (.fin 2),
          mkPrice "2024-01-01 00:10:00" 0 10 (.fin 3)]
        [mkGenB "2024-01-01 00:00:00" 0 0 (.fin 4),
          mkGenB "2024-01-01 00:10:00" 0 10 (.fin 5)] =
      [(mkPrice "2024-01-01 00:00:00" 0 0 (.fin 1),
          mkGenB "2024-01-01 00:00:00" 0 0 (.fin 4)),
        (mkPrice "2024-01-01 00:10:00" 0 10 (.fin 3),
          mkGenB "2024-01-01 00:10:00" 0 10 (.fin 5))] :=
  ⟨(claim_C1_aligned_pair_iterator _ _ (by decide) (by decide) (by decide)
      (by decide)).1,
    by decide⟩
